import Mathlib

/-!
Shallow embedding of the pose-analysis repository's geometry and
coordinate pipeline.

JavaScript numbers are modelled exactly: as rationals where the source
only adds, multiplies, divides and compares decimal values, and as
reals where square roots and arc-cosines occur.  `Math.round` is
`round` (both are floor of `x + 1/2`).  `Number(x.toFixed(n))` is
modelled by rounding at `n` decimal places, `Number(x.toPrecision(4))`
by rounding at four significant decimal digits.  A JavaScript division
whose result can be NaN or Infinity is modelled as an `Option ℝ`,
`none` standing for the non-finite result; a thrown TypeError
(property access on `undefined`) is likewise modelled by `none` at the
level of the function that throws.  Detector keypoints always carry a
score, so the defensive `k.score ?? 0` and `kp.name ?? ''` accesses of
the source are the identity in the model.

Namespaces: `App2` holds the second variant of src/app.js, `P0A` and
`P0B` the two variants of src/unnamed/part_000, and `P1` the variant
of src/unnamed/part_001.
-/

namespace Pose

/-- Rounding at four decimal places, the model of `Number(x.toFixed(4))`
on a rational value. -/
def round4Q (x : ℚ) : ℚ := ((round (x * 10 ^ 4) : ℤ) : ℚ) / 10 ^ 4

/-- Rounding at four decimal places on a real value. -/
noncomputable def round4R (x : ℝ) : ℝ := ((round (x * 10 ^ 4) : ℤ) : ℝ) / 10 ^ 4

/-- Rounding at one decimal place, the model of `Number(x.toFixed(1))`. -/
noncomputable def round1R (x : ℝ) : ℝ := ((round (x * 10) : ℤ) : ℝ) / 10

/-- Rounding at two decimal places, the model of `x.toFixed(2)`. -/
noncomputable def round2R (x : ℝ) : ℝ := ((round (x * 10 ^ 2) : ℤ) : ℝ) / 10 ^ 2

/-- Rounding at four significant decimal digits on a rational value,
the model of `Number(x.toPrecision(4))` for scores. -/
def qPrec4 (q : ℚ) : ℚ :=
  if q = 0 then 0
  else ((round (q / (10 : ℚ) ^ (Int.log 10 |q| - 3)) : ℤ) : ℚ) * (10 : ℚ) ^ (Int.log 10 |q| - 3)

/-- Rounding at four significant decimal digits on a real value, the
model of `Number(x.toPrecision(4))` for normalized coordinates. -/
noncomputable def rPrec4 (x : ℝ) : ℝ :=
  if x = 0 then 0
  else ((round (x / (10 : ℝ) ^ (Int.log 10 |x| - 3)) : ℤ) : ℝ) * (10 : ℝ) ^ (Int.log 10 |x| - 3)

/-- Euclidean norm of a 2-vector: `Math.hypot(dx, dy)`, also written
`Math.sqrt(dx**2 + dy**2)` in some variants. -/
noncomputable def hypotR (dx dy : ℝ) : ℝ := Real.sqrt (dx ^ 2 + dy ^ 2)

/-- JavaScript division that tracks the non-finite case: dividing by
zero in JavaScript yields NaN or ±Infinity, modelled as `none`. -/
noncomputable def jsDiv (a b : ℝ) : Option ℝ := if b = 0 then none else some (a / b)

/-- Minimum of a list of reals, `Math.min(...xs)`.  The empty case never
feeds a result in the source (the surrounding map is then empty), so its
value here is irrelevant. -/
noncomputable def listMin : List ℝ → ℝ
  | [] => 0
  | a :: r => r.foldl min a

/-- Maximum of a list of reals, `Math.max(...xs)`. -/
noncomputable def listMax : List ℝ → ℝ
  | [] => 0
  | a :: r => r.foldl max a

/-- A bare 2D point as consumed by the angle helpers. -/
structure Pt where
  x : ℝ
  y : ℝ

namespace App2

/-- Raw detector keypoint of the app.js variants: coordinates and score,
modelled as exact rationals. -/
structure KPq where
  x : ℚ
  y : ℚ
  score : ℚ
  deriving DecidableEq, Repr

/-- Source `normalizeKeypoints(kps, padSize)` (src/app.js): if both
coordinates are at most 1.01 the keypoint is treated as normalized and
multiplied by the padded square's side, otherwise passed through. -/
def normalizeKeypoints (kps : List KPq) (padSize : ℚ) : List KPq :=
  kps.map fun k =>
    if k.x ≤ 1.01 ∧ k.y ≤ 1.01 then ⟨k.x * padSize, k.y * padSize, k.score⟩
    else ⟨k.x, k.y, k.score⟩

/-- Metadata returned by `padToSquare` (src/app.js): integer offsets of
the image inside the square canvas of side `max w h`. -/
structure PadInfo where
  offsetX : ℤ
  offsetY : ℤ
  size : ℕ
  originalW : ℕ
  originalH : ℕ
  deriving DecidableEq, Repr

/-- Source `padToSquare(imgElement)` (src/app.js): the square side is
the larger image dimension and the offsets are `Math.round((size-w)/2)`
and `Math.round((size-h)/2)`. -/
def padToSquare (w h : ℕ) : PadInfo :=
  let size := max w h
  ⟨round (((size : ℚ) - w) / 2), round (((size : ℚ) - h) / 2), size, w, h⟩

/-- Source `computeAngle(A,B,C)` (src/app.js): null on a missing point
or a segment shorter than 1e-6, otherwise the arccos of the clamped
dot-product ratio, in degrees. -/
noncomputable def computeAngle (A B C : Option Pt) : Option ℝ :=
  match A, B, C with
  | some A, some B, some C =>
    let mag1 := hypotR (A.x - B.x) (A.y - B.y)
    let mag2 := hypotR (C.x - B.x) (C.y - B.y)
    if mag1 < 1e-6 ∨ mag2 < 1e-6 then none
    else
      some (Real.arccos (max (-1) (min 1
        (((A.x - B.x) * (C.x - B.x) + (A.y - B.y) * (C.y - B.y)) / (mag1 * mag2))))
        * 180 / Real.pi)
  | _, _, _ => none

end App2

namespace P0A

/-- Named keypoint with rational coordinates, the output shape of
`convertCoords`. -/
structure KPn where
  name : String
  x : ℚ
  y : ℚ
  score : ℚ
  deriving DecidableEq, Repr

/-- The 17 fixed keypoint labels of src/unnamed/part_000. -/
def KEYPOINT_NAMES : List String :=
  ["Nose", "Left Eye", "Right Eye", "Left Ear", "Right Ear",
   "Left Shoulder", "Right Shoulder", "Left Elbow", "Right Elbow",
   "Left Wrist", "Right Wrist", "Left Hip", "Right Hip",
   "Left Knee", "Right Knee", "Left Ankle", "Right Ankle"]

/-- Metadata of `padToSquare(img)` (src/unnamed/part_000, first
variant): offsets are exact halves, not rounded. -/
structure PadInfoA where
  offsetX : ℚ
  offsetY : ℚ
  originalW : ℕ
  originalH : ℕ
  deriving DecidableEq, Repr

/-- Source `padToSquare(img)` of the first part_000 variant. -/
def padToSquare (w h : ℕ) : PadInfoA :=
  let maxSide := max w h
  ⟨((maxSide : ℚ) - w) / 2, ((maxSide : ℚ) - h) / 2, w, h⟩

/-- Index-carrying recursion implementing the indexed map of
`convertCoords`. -/
def convertCoordsAux (padInfo : PadInfoA) : ℕ → List App2.KPq → List KPn
  | _, [] => []
  | i, kp :: rest =>
    ⟨KEYPOINT_NAMES.getD i "",
     kp.x * padInfo.originalW + padInfo.offsetX,
     kp.y * padInfo.originalH + padInfo.offsetY,
     kp.score⟩ :: convertCoordsAux padInfo (i + 1) rest

/-- Source `convertCoords(rawPoints, padInfo)` (src/unnamed/part_000):
unconditionally treats every raw coordinate as normalized, scaling x by
the original image width, y by the original height, and adding the
padding offsets.  An index beyond the 17 names yields `undefined` in
JavaScript, modelled by the empty-string default. -/
def convertCoords (rawPoints : List App2.KPq) (padInfo : PadInfoA) : List KPn :=
  convertCoordsAux padInfo 0 rawPoints

/-- Source `angle3(a, b, c)` (src/unnamed/part_000): the denominator is
regularized by adding 1e-6, so no null is ever produced; the result is
formatted with `toFixed(2)`, modelled as rounding at two decimals. -/
noncomputable def angle3 (a b c : Pt) : ℝ :=
  round2R (Real.arccos
    (((a.x - b.x) * (c.x - b.x) + (a.y - b.y) * (c.y - b.y)) /
      (hypotR (a.x - b.x) (a.y - b.y) * hypotR (c.x - b.x) (c.y - b.y) + 1e-6))
    * 180 / Real.pi)

end P0A

namespace P0B

/-- Keypoint of the second part_000 variant: a name, real coordinates
and a rational score. -/
structure KPB where
  name : String
  x : ℝ
  y : ℝ
  score : ℚ

/-- Source `angle(A, B, C)` (src/unnamed/part_000, second variant): no
degeneracy check and no clamp.  When a magnitude is zero the JavaScript
quotient is NaN; the model's value on that path is the Lean
zero-division convention and no theorem below relies on it. -/
noncomputable def angle (A B C : Pt) : ℝ :=
  Real.arccos
    (((A.x - B.x) * (C.x - B.x) + (A.y - B.y) * (C.y - B.y)) /
      (hypotR (A.x - B.x) (A.y - B.y) * hypotR (C.x - B.x) (C.y - B.y)))
    * 180 / Real.pi

/-- Lookup `kps[kps.findIndex(p => p.name === name)]`: the element of
the list carrying the given name, `undefined` (here `none`) when the
name is absent (`findIndex` then returns -1 and `kps[-1]` is
`undefined`). -/
def lookup (kps : List KPB) (n : String) : Option KPB :=
  kps.find? fun p => p.name = n

/-- Source helper `safe(a, b, c)` inside `computeAngles`
(src/unnamed/part_000): null on a missing keypoint or a score below
0.3, otherwise `angle(a,b,c).toFixed(1)`. -/
noncomputable def safe (a b c : Option KPB) : Option ℝ :=
  match a, b, c with
  | some a, some b, some c =>
    if a.score < 0.3 ∨ b.score < 0.3 ∨ c.score < 0.3 then none
    else some (round1R (angle ⟨a.x, a.y⟩ ⟨b.x, b.y⟩ ⟨c.x, c.y⟩))
  | _, _, _ => none

/-- The five joints of the result object of `computeAngles`
(src/unnamed/part_000).  The JavaScript object literal's fields are
indexed here by an enumeration. -/
inductive JointB
  | leftElbow | rightElbow | leftKnee | rightKnee | pelvis
  deriving DecidableEq, Repr

/-- The keypoint-name triple each `computeAngles` field passes to
`safe`. -/
def tripleB : JointB → String × String × String
  | .leftElbow => ("left_shoulder", "left_elbow", "left_wrist")
  | .rightElbow => ("right_shoulder", "right_elbow", "right_wrist")
  | .leftKnee => ("left_hip", "left_knee", "left_ankle")
  | .rightKnee => ("right_hip", "right_knee", "right_ankle")
  | .pelvis => ("left_shoulder", "left_hip", "right_hip")

/-- Source `computeAngles(kps)` (src/unnamed/part_000, second variant):
each field is `safe` applied to the three looked-up keypoints. -/
noncomputable def computeAngles (kps : List KPB) (j : JointB) : Option ℝ :=
  safe (lookup kps (tripleB j).1) (lookup kps (tripleB j).2.1)
    (lookup kps (tripleB j).2.2)

/-- Source `pickBestByJoint(front, side)` (src/unnamed/part_000):
element-wise keep the keypoint with the not-smaller score, front
winning ties.  The JavaScript loop runs over `front`'s indices and
would throw if `side` were shorter; in the pipeline both have 17
entries, and the model truncates at the shorter list. -/
def pickBestByJoint (front side : List KPB) : List KPB :=
  List.zipWith (fun f s => if f.score ≥ s.score then f else s) front side

/-- Output keypoint of `normalize` (src/unnamed/part_000): the input
fields spread together with the normalized coordinates, which are
`none` when the JavaScript division yields a non-finite value. -/
structure NKPB where
  name : String
  x : ℝ
  y : ℝ
  score : ℚ
  nx : Option ℝ
  ny : Option ℝ

/-- Local `cx` of `normalize`: midpoint of the x extremes. -/
noncomputable def normCx (kps : List KPB) : ℝ :=
  (listMin (kps.map (·.x)) + listMax (kps.map (·.x))) / 2

/-- Local `cy` of `normalize`: midpoint of the y extremes. -/
noncomputable def normCy (kps : List KPB) : ℝ :=
  (listMin (kps.map (·.y)) + listMax (kps.map (·.y))) / 2

/-- Local `scale` of `normalize`: the larger bounding-box extent, with
NO fallback for the degenerate case. -/
noncomputable def normScale (kps : List KPB) : ℝ :=
  max (listMax (kps.map (·.x)) - listMin (kps.map (·.x)))
    (listMax (kps.map (·.y)) - listMin (kps.map (·.y)))

/-- Source `normalize(kps)` (src/unnamed/part_000, second variant):
min-max box normalization with NO fallback for a zero scale — a
degenerate box divides by zero, which in JavaScript produces NaN
(modelled `none` through `jsDiv`). -/
noncomputable def normalize (kps : List KPB) : List NKPB :=
  kps.map fun p =>
    ⟨p.name, p.x, p.y, p.score, jsDiv (p.x - normCx kps) (normScale kps),
      jsDiv (p.y - normCy kps) (normScale kps)⟩

/-- Proportion summary of `proportions` (src/unnamed/part_000): the
values behind the `toFixed(1)` strings; no field is null-able here. -/
structure PropsB where
  arm : ℝ
  leg : ℝ
  torso : ℝ

/-- Source `proportions(kps)` (src/unnamed/part_000, second variant):
arm and leg are the left/right means as in part_001 but rounded at one
decimal, and torso is the single left shoulder-to-left-hip distance —
not a midpoint-to-midpoint distance.  A missing keypoint makes the
JavaScript `dist` call read a property of `undefined` and throw,
modelled as the outer `none`. -/
noncomputable def proportions (kps : List KPB) : Option PropsB :=
  match lookup kps "left_shoulder", lookup kps "left_wrist",
    lookup kps "right_shoulder", lookup kps "right_wrist",
    lookup kps "left_hip", lookup kps "left_ankle",
    lookup kps "right_hip", lookup kps "right_ankle" with
  | some ls, some lw, some rs, some rw, some lh, some la, some rh, some ra =>
    some
      ⟨round1R ((hypotR (ls.x - lw.x) (ls.y - lw.y) +
          hypotR (rs.x - rw.x) (rs.y - rw.y)) / 2),
       round1R ((hypotR (lh.x - la.x) (lh.y - la.y) +
          hypotR (rh.x - ra.x) (rh.y - ra.y)) / 2),
       round1R (hypotR (ls.x - lh.x) (ls.y - lh.y))⟩
  | _, _, _, _, _, _, _, _ => none

end P0B

namespace P1

/-- The 17 fixed keypoint names of src/unnamed/part_001. -/
def KP_NAMES : List String :=
  ["nose", "left_eye", "right_eye", "left_ear", "right_ear",
   "left_shoulder", "right_shoulder", "left_elbow", "right_elbow",
   "left_wrist", "right_wrist", "left_hip", "right_hip",
   "left_knee", "right_knee", "left_ankle", "right_ankle"]

/-- Keypoint of the part_001 pipeline: real pixel coordinates and a
rational score. -/
structure KP where
  name : String
  x : ℝ
  y : ℝ
  score : ℚ

/-- Lookup `kps[idx(name)]` with `idx(name) = KP_NAMES.indexOf(name)`
(src/unnamed/part_001): position in the fixed name table, then array
access, `undefined` (`none`) when the array is too short. -/
def lookup (kps : List KP) (n : String) : Option KP :=
  (KP_NAMES.findIdx? (· = n)).bind kps.get?

/-- Rational keypoint shape used by the canvas-space resolver
`ensurePixelCoords`. -/
structure KPr where
  name : String
  x : ℚ
  y : ℚ
  score : ℚ
  deriving DecidableEq, Repr

/-- Source `ensurePixelCoords(kp, canvas)` (src/unnamed/part_001):
coordinates both at most 1 are treated as normalized and scaled by the
canvas width and height; otherwise the keypoint passes through. -/
def ensurePixelCoords (kp : KPr) (w h : ℚ) : KPr :=
  if kp.x ≤ 1 ∧ kp.y ≤ 1 then ⟨kp.name, kp.x * w, kp.y * h, kp.score⟩
  else ⟨kp.name, kp.x, kp.y, kp.score⟩

/-- Source `angleAtB(A,B,C)` (src/unnamed/part_001): null exactly when
a magnitude is zero, otherwise arccos of the clamped ratio, in
degrees. -/
noncomputable def angleAtB (A B C : KP) : Option ℝ :=
  let mag1 := hypotR (A.x - B.x) (A.y - B.y)
  let mag2 := hypotR (C.x - B.x) (C.y - B.y)
  if mag1 = 0 ∨ mag2 = 0 then none
  else
    some (Real.arccos (max (-1) (min 1
      (((A.x - B.x) * (C.x - B.x) + (A.y - B.y) * (C.y - B.y)) / (mag1 * mag2))))
      * 180 / Real.pi)

/-- The joint labels of `ANGLE_DEFS` (src/unnamed/part_001). -/
inductive AngleLabel
  | leftElbow | rightElbow | leftShoulder | rightShoulder
  | leftKnee | rightKnee | leftHip | rightHip
  deriving DecidableEq, Repr

/-- Source `ANGLE_DEFS`: label to ordered keypoint-name triple
(A, vertex B, C). -/
def ANGLE_DEFS : AngleLabel → String × String × String
  | .leftElbow => ("left_shoulder", "left_elbow", "left_wrist")
  | .rightElbow => ("right_shoulder", "right_elbow", "right_wrist")
  | .leftShoulder => ("left_elbow", "left_shoulder", "left_hip")
  | .rightShoulder => ("right_elbow", "right_shoulder", "right_hip")
  | .leftKnee => ("left_hip", "left_knee", "left_ankle")
  | .rightKnee => ("right_hip", "right_knee", "right_ankle")
  | .leftHip => ("left_shoulder", "left_hip", "left_knee")
  | .rightHip => ("right_shoulder", "right_hip", "right_knee")

/-- Per-joint result of `computeAnglesFromKPs`: angle (null-able) and
confidence. -/
structure AngleResult where
  angle : Option ℝ
  conf : ℚ

/-- Source `computeAnglesFromKPs(kps)` (src/unnamed/part_001): for each
definition, a missing keypoint gives angle null and confidence 0;
otherwise the angle (rounded at 4 decimals when non-null) and the
minimum of the three scores rounded at 4 decimals.  No confidence
threshold is applied here. -/
noncomputable def computeAnglesFromKPs (kps : List KP) (l : AngleLabel) : AngleResult :=
  let t := ANGLE_DEFS l
  match lookup kps t.1, lookup kps t.2.1, lookup kps t.2.2 with
  | some A, some B, some C =>
    ⟨(angleAtB A B C).map round4R,
     round4Q (min A.score (min B.score C.score))⟩
  | _, _, _ => ⟨none, 0⟩

/-- Proportion summary of `computeProportions`: each field null-able. -/
structure Props where
  arm : Option ℝ
  leg : Option ℝ
  torso : Option ℝ

/-- Model of `v || null` followed by `v ? Number(v.toFixed(4)) : null`
on a non-negative finite value: an exact zero becomes null. -/
noncomputable def posOrNull (v : ℝ) : Option ℝ :=
  if v = 0 then none else some (round4R v)

/-- Source `computeProportions(kps)` (src/unnamed/part_001).  When all
eight required keypoints are present the three summary values are
computed; a missing keypoint makes the JavaScript `dist` call read a
property of `undefined` and throw, modelled as the outer `none`. -/
noncomputable def computeProportions (kps : List KP) : Option Props :=
  match lookup kps "left_shoulder", lookup kps "right_shoulder",
    lookup kps "left_hip", lookup kps "right_hip",
    lookup kps "left_wrist", lookup kps "right_wrist",
    lookup kps "left_ankle", lookup kps "right_ankle" with
  | some ls, some rs, some lh, some rh, some lw, some rw, some la, some ra =>
    some
      ⟨posOrNull ((hypotR (ls.x - lw.x) (ls.y - lw.y) + hypotR (rs.x - rw.x) (rs.y - rw.y)) / 2),
       posOrNull ((hypotR (lh.x - la.x) (lh.y - la.y) + hypotR (rh.x - ra.x) (rh.y - ra.y)) / 2),
       posOrNull (hypotR ((ls.x + rs.x) / 2 - (lh.x + rh.x) / 2)
         ((ls.y + rs.y) / 2 - (lh.y + rh.y) / 2))⟩
  | _, _, _, _, _, _, _, _ => none

/-- Output keypoint of `normalizePose`: name, normalized coordinates
and score. -/
structure NKP where
  name : String
  nx : ℝ
  ny : ℝ
  score : ℚ

/-- Local `cx` of `normalizePose`: midpoint of the x extremes. -/
noncomputable def poseCx (kps : List KP) : ℝ :=
  (listMin (kps.map (·.x)) + listMax (kps.map (·.x))) / 2

/-- Local `cy` of `normalizePose`: midpoint of the y extremes. -/
noncomputable def poseCy (kps : List KP) : ℝ :=
  (listMin (kps.map (·.y)) + listMax (kps.map (·.y))) / 2

/-- Local `Math.max(maxX-minX, maxY-minY)` of `normalizePose`. -/
noncomputable def poseScale0 (kps : List KP) : ℝ :=
  max (listMax (kps.map (·.x)) - listMin (kps.map (·.x)))
    (listMax (kps.map (·.y)) - listMin (kps.map (·.y)))

/-- Local `scale` of `normalizePose` with the `|| 1` fallback: 1 when
the bounding box is degenerate. -/
noncomputable def poseScale (kps : List KP) : ℝ :=
  if poseScale0 kps = 0 then 1 else poseScale0 kps

/-- Source `normalizePose(kps)` (src/unnamed/part_001): min-max box
center and scale, with scale falling back to 1 when the box is
degenerate (`|| 1`), every coordinate re-expressed as
`(p - c) / scale` and displayed at 4 significant digits. -/
noncomputable def normalizePose (kps : List KP) : List NKP :=
  kps.map fun k =>
    ⟨k.name, rPrec4 ((k.x - poseCx kps) / poseScale kps),
      rPrec4 ((k.y - poseCy kps) / poseScale kps), qPrec4 k.score⟩

/-- The two source views. -/
inductive View
  | front | side
  deriving DecidableEq, Repr

/-- Per-label choice of `chooseBestPerAngle`. -/
structure Chosen where
  view : View
  angle : Option ℝ
  conf : ℚ

/-- Source `chooseBestPerAngle(frontAngles, sideAngles)`
(src/unnamed/part_001): per label, front wins when its confidence is
greater or equal (ties deterministically favor front).  The angle maps
are total here, so the defensive `f ? f.conf : 0` of the source is the
plain field access. -/
noncomputable def chooseBestPerAngle (frontAngles sideAngles : AngleLabel → AngleResult)
    (key : AngleLabel) : Chosen :=
  let f := frontAngles key
  let s := sideAngles key
  if f.conf ≥ s.conf then ⟨.front, f.angle, f.conf⟩ else ⟨.side, s.angle, s.conf⟩

/-- Canvas side constant of src/unnamed/part_001. -/
def CANVAS_SIZE : ℕ := 512

/-- Pad metadata of `drawImagePaddedToCanvas`. -/
structure Pad where
  scale : ℚ
  offsetX : ℤ
  offsetY : ℤ
  destW : ℤ
  destH : ℤ
  srcW : ℕ
  srcH : ℕ
  deriving DecidableEq, Repr

/-- Source `drawImagePaddedToCanvas(img, canvas)`
(src/unnamed/part_001): uniform scale `CANVAS_SIZE / max(srcW, srcH)`,
rounded destination size, centered with rounded offsets. -/
def drawImagePaddedToCanvas (srcW srcH : ℕ) : Pad :=
  let size := max srcW srcH
  let scale : ℚ := (CANVAS_SIZE : ℚ) / size
  let destW := round ((srcW : ℚ) * scale)
  let destH := round ((srcH : ℚ) * scale)
  ⟨scale, round (((CANVAS_SIZE : ℚ) - destW) / 2), round (((CANVAS_SIZE : ℚ) - destH) / 2),
   destW, destH, srcW, srcH⟩

end P1

/-- Predicate expressing that an optional keypoint is missing or has a
score below the given threshold. -/
def P0B.lowOrMissing (thr : ℚ) (o : Option P0B.KPB) : Prop :=
  ∀ p, o = some p → p.score < thr

/-- Concrete ten-entry keypoint list exercising the left-elbow triple:
indices 5, 7, 9 carry the shoulder, elbow and wrist, the shoulder with
confidence 0.1 and the others with 0.9. -/
noncomputable def c3Kps : List P1.KP :=
  [⟨"f", 0, 0, 0⟩, ⟨"f", 0, 0, 0⟩, ⟨"f", 0, 0, 0⟩, ⟨"f", 0, 0, 0⟩, ⟨"f", 0, 0, 0⟩,
   ⟨"left_shoulder", 0, 0, 0.1⟩, ⟨"f", 0, 0, 0⟩, ⟨"left_elbow", 1, 0, 0.9⟩,
   ⟨"f", 0, 0, 0⟩, ⟨"left_wrist", 1, 1, 0.9⟩]

/-- Concrete seventeen-entry keypoint list whose shoulder, wrist, hip
and ankle slots form 3-4-5 and 6-8-10 triangles. -/
noncomputable def c5Kps : List P1.KP :=
  [⟨"f", 0, 0, 0⟩, ⟨"f", 0, 0, 0⟩, ⟨"f", 0, 0, 0⟩, ⟨"f", 0, 0, 0⟩, ⟨"f", 0, 0, 0⟩,
   ⟨"ls", 0, 0, 1⟩, ⟨"rs", 2, 0, 1⟩, ⟨"f", 0, 0, 0⟩, ⟨"f", 0, 0, 0⟩,
   ⟨"lw", 3, 4, 1⟩, ⟨"rw", 5, 4, 1⟩, ⟨"lh", 0, 8, 1⟩, ⟨"rh", 2, 8, 1⟩,
   ⟨"f", 0, 0, 0⟩, ⟨"f", 0, 0, 0⟩, ⟨"la", 6, 16, 1⟩, ⟨"ra", 8, 16, 1⟩]

/-- Concrete named keypoint list for the part_000 `proportions`
variant, laid out so that its torso — the left shoulder-to-left-hip
distance, 10 — differs from the midpoint-to-midpoint distance, 8:
shoulders (0,0) and (2,0), hips (6,8) and (-4,8). -/
noncomputable def c5KpsB : List P0B.KPB :=
  [⟨"left_shoulder", 0, 0, 1⟩, ⟨"left_wrist", 3, 4, 1⟩,
   ⟨"right_shoulder", 2, 0, 1⟩, ⟨"right_wrist", 5, 4, 1⟩,
   ⟨"left_hip", 6, 8, 1⟩, ⟨"left_ankle", 6, 16, 1⟩,
   ⟨"right_hip", -4, 8, 1⟩, ⟨"right_ankle", -4, 16, 1⟩]

/-! ## Claim C1: the coordinate resolver heuristic -/

/-- C1 (amended): the app.js resolver `normalizeKeypoints` multiplies a
keypoint whose coordinates are both at most 1.01 by the padded square's
side and passes any other keypoint through unchanged, preserving the
score and the index; in particular normalized (0.5, 0.5) against frame
size 350 resolves to (175, 175) and a keypoint already at (175, 175) is
left unchanged.  (The part_000 variant `convertCoords` does not follow
this contract; see the counterexample.) -/
theorem c1_normalizeKeypoints_resolves (kps : List App2.KPq) (s : ℚ) (i : ℕ)
    (k : App2.KPq) (hk : kps[i]? = some k) :
    (k.x ≤ 1.01 ∧ k.y ≤ 1.01 →
      (App2.normalizeKeypoints kps s)[i]? = some ⟨k.x * s, k.y * s, k.score⟩) ∧
    (1.01 < k.x ∨ 1.01 < k.y →
      (App2.normalizeKeypoints kps s)[i]? = some k) := by
  obtain ⟨kx, ky, ks⟩ := k
  constructor
  · intro hcond
    simp only [App2.normalizeKeypoints, List.getElem?_map, hk, Option.map_some']
    rw [if_pos hcond]
  · intro hcond
    have hnot : ¬((⟨kx, ky, ks⟩ : App2.KPq).x ≤ 1.01 ∧ (⟨kx, ky, ks⟩ : App2.KPq).y ≤ 1.01) := by
      rcases hcond with h | h
      · exact fun hc => absurd hc.1 (not_le.mpr h)
      · exact fun hc => absurd hc.2 (not_le.mpr h)
    simp only [App2.normalizeKeypoints, List.getElem?_map, hk, Option.map_some']
    rw [if_neg hnot]

/-- C1 witness: the concrete round trip of the claim, frame size 350. -/
theorem c1_roundtrip_witness :
    (App2.normalizeKeypoints [⟨0.5, 0.5, 0.9⟩] 350)[0]? = some ⟨175, 175, 0.9⟩ ∧
    (App2.normalizeKeypoints [⟨175, 175, 0.9⟩] 350)[0]? = some ⟨175, 175, 0.9⟩ := by
  constructor
  · have h := (c1_normalizeKeypoints_resolves [⟨0.5, 0.5, 0.9⟩] 350 0 ⟨0.5, 0.5, 0.9⟩ rfl).1
      (by norm_num)
    rw [h]
    norm_num
  · exact (c1_normalizeKeypoints_resolves [⟨175, 175, 0.9⟩] 350 0 ⟨175, 175, 0.9⟩ rfl).2
      (by norm_num)

/-- C1 counterexample: `convertCoords` (src/unnamed/part_000) does not
pass a pixel-range keypoint through.  A keypoint already at pixel
(175, 175), resolved against a 100 by 50 image padded to a square, is
moved to (17500, 8775) instead of being left unchanged. -/
theorem c1_convertCoords_counterexample :
    P0A.convertCoords [⟨175, 175, 1⟩] (P0A.padToSquare 100 50) =
      [⟨"Nose", 17500, 8775, 1⟩] := by
  simp only [P0A.convertCoords, P0A.convertCoordsAux, P0A.padToSquare, P0A.KEYPOINT_NAMES]
  norm_num [List.getD]

/-! ## Claim C2: degenerate angle inputs -/

/-- C2 (amended): `computeAngle` (src/app.js) returns null — never NaN,
a numeric value, or a thrown error — whenever either segment length is
below the 1e-6 epsilon.  (The part_000 variant `angle3` instead
regularizes the denominator and returns a numeric value on the same
inputs; see the counterexample.) -/
theorem c2_computeAngle_degenerate_null (A B C : Pt)
    (h : hypotR (A.x - B.x) (A.y - B.y) < 1e-6 ∨ hypotR (C.x - B.x) (C.y - B.y) < 1e-6) :
    App2.computeAngle (some A) (some B) (some C) = none := by
  simp only [App2.computeAngle]
  rw [if_pos h]

/-- C2 witness: the zero-length second segment of the claim,
`angleAtVertex(A, B, B)`, at concrete points. -/
theorem c2_degenerate_witness :
    App2.computeAngle (some ⟨0, 0⟩) (some ⟨3, 4⟩) (some ⟨3, 4⟩) = none :=
  c2_computeAngle_degenerate_null ⟨0, 0⟩ ⟨3, 4⟩ ⟨3, 4⟩
    (Or.inr (by norm_num [hypotR]))

/-- C2 counterexample: `angle3` (src/unnamed/part_000) applied to a
zero-length second segment returns the numeric value 90 (the JavaScript
string "90.00"), not null. -/
theorem c2_angle3_counterexample :
    P0A.angle3 ⟨1, 0⟩ ⟨0, 0⟩ ⟨0, 0⟩ = 90 := by
  have hpi := Real.pi_ne_zero
  simp only [P0A.angle3, hypotR, round2R]
  norm_num [Real.sqrt_zero, Real.sqrt_one, Real.arccos_zero]
  rw [show Real.pi / 2 * 180 / Real.pi = 90 by field_simp; ring]
  norm_num

/-! ## Claim C3: confidence gating and per-joint confidence -/

/-- Auxiliary: `safe` yields null when any of its three arguments is
missing or scores below 0.3. -/
theorem P0B.safe_eq_none (a b c : Option P0B.KPB)
    (h : P0B.lowOrMissing 0.3 a ∨ P0B.lowOrMissing 0.3 b ∨ P0B.lowOrMissing 0.3 c) :
    P0B.safe a b c = none := by
  rcases a with _ | a
  · rfl
  rcases b with _ | b
  · rfl
  rcases c with _ | c
  · rfl
  simp only [P0B.safe]
  rw [if_pos]
  rcases h with h | h | h
  · exact Or.inl (h a rfl)
  · exact Or.inr (Or.inl (h b rfl))
  · exact Or.inr (Or.inr (h c rfl))

/-- Auxiliary: rounding at four decimal places fixes a value that is
already an integer multiple of 1/10000. -/
theorem round4Q_fix (n : ℤ) : round4Q ((n : ℚ) / 10 ^ 4) = (n : ℚ) / 10 ^ 4 := by
  unfold round4Q
  rw [div_mul_cancel₀ _ (by norm_num : (10 : ℚ) ^ 4 ≠ 0), round_intCast]

/-- C3 (amended): the gating and the confidence reporting live in two
different variants.  `computeAngles` (src/unnamed/part_000) returns a
null angle for a joint whenever any of its three keypoints is missing
or has confidence below its fixed 0.3 threshold, but reports no
confidence; `computeAnglesFromKPs` (src/unnamed/part_001) reports, for
a joint whose three keypoints are present, the minimum of their three
confidences rounded at four decimals (which is that minimum exactly
when the scores are four-decimal values, as the part_001 pipeline
produces), but applies no confidence threshold to the angle (see the
counterexample). -/
theorem c3_gating_and_min_confidence :
    (∀ (kps : List P0B.KPB) (j : P0B.JointB),
      P0B.lowOrMissing 0.3 (P0B.lookup kps (P0B.tripleB j).1) ∨
      P0B.lowOrMissing 0.3 (P0B.lookup kps (P0B.tripleB j).2.1) ∨
      P0B.lowOrMissing 0.3 (P0B.lookup kps (P0B.tripleB j).2.2) →
      P0B.computeAngles kps j = none) ∧
    (∀ (kps : List P1.KP) (l : P1.AngleLabel) (A B C : P1.KP),
      P1.lookup kps (P1.ANGLE_DEFS l).1 = some A →
      P1.lookup kps (P1.ANGLE_DEFS l).2.1 = some B →
      P1.lookup kps (P1.ANGLE_DEFS l).2.2 = some C →
      (P1.computeAnglesFromKPs kps l).conf = round4Q (min A.score (min B.score C.score)) ∧
      ((∃ a : ℤ, A.score = (a : ℚ) / 10 ^ 4) → (∃ b : ℤ, B.score = (b : ℚ) / 10 ^ 4) →
        (∃ c : ℤ, C.score = (c : ℚ) / 10 ^ 4) →
        (P1.computeAnglesFromKPs kps l).conf = min A.score (min B.score C.score))) := by
  constructor
  · intro kps j h
    exact P0B.safe_eq_none _ _ _ h
  · intro kps l A B C hA hB hC
    have hconf : (P1.computeAnglesFromKPs kps l).conf =
        round4Q (min A.score (min B.score C.score)) := by
      simp only [P1.computeAnglesFromKPs, hA, hB, hC]
    refine ⟨hconf, ?_⟩
    rintro ⟨a, ha⟩ ⟨b, hb⟩ ⟨c, hc⟩
    have hmono : Monotone (fun q : ℚ => q / 10 ^ 4) :=
      fun x y hxy => (div_le_div_iff_of_pos_right (by norm_num)).mpr hxy
    have key : ∀ x y : ℚ, min x y / 10 ^ 4 = min (x / 10 ^ 4) (y / 10 ^ 4) :=
      fun x y => hmono.map_min
    have hcast : ((min a (min b c) : ℤ) : ℚ) = min (a : ℚ) (min (b : ℚ) (c : ℚ)) := by
      push_cast
      rfl
    rw [hconf, ha, hb, hc, ← key, ← key, ← hcast, round4Q_fix]

/-- C3 witness: the gating half at an empty keypoint list, and the
confidence half at the concrete list, where the reported confidence is
the minimum 0.1. -/
theorem c3_concrete_witness :
    P0B.computeAngles [] .leftElbow = none ∧
    (P1.computeAnglesFromKPs c3Kps .leftElbow).conf = 0.1 := by
  constructor
  · exact c3_gating_and_min_confidence.1 [] .leftElbow
      (Or.inl (by intro p hp; simp [P0B.lookup] at hp))
  · have h := (c3_gating_and_min_confidence.2 c3Kps .leftElbow
      ⟨"left_shoulder", 0, 0, 0.1⟩ ⟨"left_elbow", 1, 0, 0.9⟩ ⟨"left_wrist", 1, 1, 0.9⟩
      rfl rfl rfl).2
      ⟨1000, by norm_num⟩ ⟨9000, by norm_num⟩ ⟨9000, by norm_num⟩
    rw [h]
    norm_num

/-- C3 counterexample: with the shoulder at confidence 0.1 (below the
0.3 threshold of the claim) and a geometrically valid triple,
`computeAnglesFromKPs` still reports a numeric angle, not null, while
the joint confidence it reports is below the threshold. -/
theorem c3_no_gating_counterexample :
    (P1.computeAnglesFromKPs c3Kps .leftElbow).angle ≠ none ∧
    (P1.computeAnglesFromKPs c3Kps .leftElbow).conf < 0.3 := by
  have hval : P1.computeAnglesFromKPs c3Kps .leftElbow =
      ⟨(P1.angleAtB ⟨"left_shoulder", 0, 0, 0.1⟩ ⟨"left_elbow", 1, 0, 0.9⟩
        ⟨"left_wrist", 1, 1, 0.9⟩).map round4R,
       round4Q (min 0.1 (min 0.9 0.9))⟩ := rfl
  have hm1 : hypotR ((0 : ℝ) - 1) (0 - 0) = 1 := by
    norm_num [hypotR, Real.sqrt_one]
  have hm2 : hypotR ((1 : ℝ) - 1) (1 - 0) = 1 := by
    norm_num [hypotR, Real.sqrt_one]
  rw [hval]
  constructor
  · simp only [P1.angleAtB, hm1, hm2]
    norm_num
    exact Option.some_ne_none _
  · have harg : round4Q (min (0.1 : ℚ) (min 0.9 0.9)) = 0.1 := by
      rw [min_self, min_eq_left (by norm_num : (0.1 : ℚ) ≤ 0.9), round4Q,
        show (0.1 : ℚ) * 10 ^ 4 = 1000 by norm_num]
      norm_num
    rw [show (⟨(P1.angleAtB ⟨"left_shoulder", 0, 0, 0.1⟩ ⟨"left_elbow", 1, 0, 0.9⟩
        ⟨"left_wrist", 1, 1, 0.9⟩).map round4R,
        round4Q (min 0.1 (min 0.9 0.9))⟩ : P1.AngleResult).conf =
        round4Q (min 0.1 (min 0.9 0.9)) from rfl, harg]
    norm_num

/-! ## Claim C4: letterbox invariants -/

/-- Auxiliary: rounding is monotone. -/
theorem round_mono' {x y : ℚ} (h : x ≤ y) : round x ≤ round y := by
  rw [round_eq, round_eq]
  exact Int.floor_le_floor (by linarith)

/-- Auxiliary: rounding a non-negative value is non-negative. -/
theorem round_nonneg' {x : ℚ} (hx : 0 ≤ x) : 0 ≤ round x := by
  rw [round_eq]
  exact Int.floor_nonneg.mpr (by linarith)

/-- Auxiliary: twice the rounded half of an integer is the integer
itself or its successor. -/
theorem two_mul_round_half (n : ℤ) :
    2 * round ((n : ℚ) / 2) = n ∨ 2 * round ((n : ℚ) / 2) = n + 1 := by
  rcases Int.even_or_odd n with ⟨m, hm⟩ | ⟨m, hm⟩
  · left
    subst hm
    rw [show ((m + m : ℤ) : ℚ) / 2 = (m : ℚ) by push_cast; ring, round_intCast]
    ring
  · right
    subst hm
    rw [show ((2 * m + 1 : ℤ) : ℚ) / 2 = (m : ℚ) + 1 / 2 by push_cast; ring, round_eq,
      show (m : ℚ) + 1 / 2 + 1 / 2 = ((m + 1 : ℤ) : ℚ) by push_cast; ring, Int.floor_intCast]
    ring

/-- Auxiliary: the four letterbox invariants for `padToSquare`
(src/app.js): non-negative offsets, one zero offset, and the original
width plus twice the x offset recovering the square side within one
pixel (the scale of this transform is 1). -/
theorem App2.padToSquare_invariants (w h : ℕ) :
    0 ≤ (App2.padToSquare w h).offsetX ∧ 0 ≤ (App2.padToSquare w h).offsetY ∧
      min (App2.padToSquare w h).offsetX (App2.padToSquare w h).offsetY = 0 ∧
      |(w : ℤ) + 2 * (App2.padToSquare w h).offsetX - ((App2.padToSquare w h).size : ℤ)| ≤ 1 := by
  rcases le_total h w with hc | hc
  · have hmax : max w h = w := max_eq_left hc
    have hX : (App2.padToSquare w h).offsetX = 0 := by
      show round ((((max w h : ℕ) : ℚ) - (w : ℚ)) / 2) = 0
      rw [hmax]
      norm_num
    have hY : (App2.padToSquare w h).offsetY = round (((w : ℚ) - (h : ℚ)) / 2) := by
      show round ((((max w h : ℕ) : ℚ) - (h : ℚ)) / 2) = _
      rw [hmax]
    have hS : ((App2.padToSquare w h).size : ℤ) = (w : ℤ) := by
      show ((max w h : ℕ) : ℤ) = (w : ℤ)
      rw [hmax]
    have hY0 : 0 ≤ (App2.padToSquare w h).offsetY := by
      rw [hY]
      refine round_nonneg' (div_nonneg ?_ (by norm_num))
      have : (h : ℚ) ≤ (w : ℚ) := by exact_mod_cast hc
      linarith
    refine ⟨le_of_eq hX.symm, hY0, ?_, ?_⟩
    · rw [hX]
      exact min_eq_left hY0
    · rw [hX, hS]
      norm_num
  · have hmax : max w h = h := max_eq_right hc
    have hY : (App2.padToSquare w h).offsetY = 0 := by
      show round ((((max w h : ℕ) : ℚ) - (h : ℚ)) / 2) = 0
      rw [hmax]
      norm_num
    have hX : (App2.padToSquare w h).offsetX = round (((((h : ℤ) - w : ℤ)) : ℚ) / 2) := by
      show round ((((max w h : ℕ) : ℚ) - (w : ℚ)) / 2) = _
      rw [hmax]
      congr 1
      push_cast
      ring
    have hS : ((App2.padToSquare w h).size : ℤ) = (h : ℤ) := by
      show ((max w h : ℕ) : ℤ) = (h : ℤ)
      rw [hmax]
    have hX0 : 0 ≤ (App2.padToSquare w h).offsetX := by
      rw [hX]
      refine round_nonneg' (div_nonneg ?_ (by norm_num))
      have : (w : ℤ) ≤ (h : ℤ) := by exact_mod_cast hc
      have : ((((h : ℤ) - w : ℤ)) : ℚ) = (h : ℚ) - (w : ℚ) := by push_cast; ring
      rw [this]
      have : (w : ℚ) ≤ (h : ℚ) := by exact_mod_cast hc
      linarith
    refine ⟨hX0, le_of_eq hY.symm, ?_, ?_⟩
    · rw [hY]
      exact min_eq_right hX0
    · rw [hX, hS]
      rcases two_mul_round_half ((h : ℤ) - w) with h2 | h2 <;> rw [h2]
      · rw [show (w : ℤ) + ((h : ℤ) - w) - (h : ℤ) = 0 by ring]
        norm_num
      · rw [show (w : ℤ) + ((h : ℤ) - w + 1) - (h : ℤ) = 1 by ring]
        norm_num

/-- Auxiliary: the four letterbox invariants for
`drawImagePaddedToCanvas` (src/unnamed/part_001) at its 512-pixel
square canvas: non-negative offsets, one zero offset, and the source
width scaled plus twice the x offset rounding back to 512 within one
pixel. -/
theorem P1.pad_invariants (w h : ℕ) (hw : 1 ≤ w) (hh : 1 ≤ h) :
    0 ≤ (P1.drawImagePaddedToCanvas w h).offsetX ∧
      0 ≤ (P1.drawImagePaddedToCanvas w h).offsetY ∧
      min (P1.drawImagePaddedToCanvas w h).offsetX (P1.drawImagePaddedToCanvas w h).offsetY = 0 ∧
      |round ((w : ℚ) * (P1.drawImagePaddedToCanvas w h).scale +
        2 * ((P1.drawImagePaddedToCanvas w h).offsetX : ℚ)) - (P1.CANVAS_SIZE : ℤ)| ≤ 1 := by
  have hscale : (P1.drawImagePaddedToCanvas w h).scale = (512 : ℚ) / ((max w h : ℕ) : ℚ) := rfl
  have hdW : (P1.drawImagePaddedToCanvas w h).destW =
      round ((w : ℚ) * ((512 : ℚ) / ((max w h : ℕ) : ℚ))) := rfl
  have hdH : (P1.drawImagePaddedToCanvas w h).destH =
      round ((h : ℚ) * ((512 : ℚ) / ((max w h : ℕ) : ℚ))) := rfl
  have hoX : (P1.drawImagePaddedToCanvas w h).offsetX =
      round (((512 : ℚ) - ((P1.drawImagePaddedToCanvas w h).destW : ℚ)) / 2) := rfl
  have hoY : (P1.drawImagePaddedToCanvas w h).offsetY =
      round (((512 : ℚ) - ((P1.drawImagePaddedToCanvas w h).destH : ℚ)) / 2) := rfl
  have hCS : (P1.CANVAS_SIZE : ℤ) = 512 := rfl
  have hw0 : ((w : ℚ)) ≠ 0 := Nat.cast_ne_zero.mpr (by omega)
  have hh0 : ((h : ℚ)) ≠ 0 := Nat.cast_ne_zero.mpr (by omega)
  have hmaxpos : (0 : ℚ) < ((max w h : ℕ) : ℚ) := by
    have h1 : 1 ≤ max w h := le_trans hw (Nat.le_max_left w h)
    exact_mod_cast Nat.lt_of_lt_of_le Nat.zero_lt_one h1
  have hdWle : (P1.drawImagePaddedToCanvas w h).destW ≤ 512 := by
    rw [hdW]
    have harg : (w : ℚ) * ((512 : ℚ) / ((max w h : ℕ) : ℚ)) ≤ 512 := by
      rw [mul_div_assoc', div_le_iff₀ hmaxpos]
      have hwle : (w : ℚ) ≤ ((max w h : ℕ) : ℚ) := by
        exact_mod_cast Nat.le_max_left w h
      nlinarith
    calc round ((w : ℚ) * ((512 : ℚ) / ((max w h : ℕ) : ℚ))) ≤ round (512 : ℚ) :=
          round_mono' harg
      _ = 512 := by norm_num
  have hdHle : (P1.drawImagePaddedToCanvas w h).destH ≤ 512 := by
    rw [hdH]
    have harg : (h : ℚ) * ((512 : ℚ) / ((max w h : ℕ) : ℚ)) ≤ 512 := by
      rw [mul_div_assoc', div_le_iff₀ hmaxpos]
      have hhle : (h : ℚ) ≤ ((max w h : ℕ) : ℚ) := by
        exact_mod_cast Nat.le_max_right w h
      nlinarith
    calc round ((h : ℚ) * ((512 : ℚ) / ((max w h : ℕ) : ℚ))) ≤ round (512 : ℚ) :=
          round_mono' harg
      _ = 512 := by norm_num
  have hX0 : 0 ≤ (P1.drawImagePaddedToCanvas w h).offsetX := by
    rw [hoX]
    refine round_nonneg' (div_nonneg ?_ (by norm_num))
    have : ((P1.drawImagePaddedToCanvas w h).destW : ℚ) ≤ 512 := by
      exact_mod_cast hdWle
    linarith
  have hY0 : 0 ≤ (P1.drawImagePaddedToCanvas w h).offsetY := by
    rw [hoY]
    refine round_nonneg' (div_nonneg ?_ (by norm_num))
    have : ((P1.drawImagePaddedToCanvas w h).destH : ℚ) ≤ 512 := by
      exact_mod_cast hdHle
    linarith
  refine ⟨hX0, hY0, ?_, ?_⟩
  · rcases le_total h w with hc | hc
    · have hmax : max w h = w := max_eq_left hc
      have harg : (w : ℚ) * ((512 : ℚ) / ((w : ℕ) : ℚ)) = 512 := by
        field_simp
      have hfull : (P1.drawImagePaddedToCanvas w h).destW = 512 := by
        rw [hdW, hmax, harg]
        norm_num
      have hzero : (P1.drawImagePaddedToCanvas w h).offsetX = 0 := by
        rw [hoX, hfull]
        norm_num
      rw [hzero]
      exact min_eq_left hY0
    · have hmax : max w h = h := max_eq_right hc
      have harg : (h : ℚ) * ((512 : ℚ) / ((h : ℕ) : ℚ)) = 512 := by
        field_simp
      have hfull : (P1.drawImagePaddedToCanvas w h).destH = 512 := by
        rw [hdH, hmax, harg]
        norm_num
      have hzero : (P1.drawImagePaddedToCanvas w h).offsetY = 0 := by
        rw [hoY, hfull]
        norm_num
      rw [hzero]
      exact min_eq_right hX0
  · rw [hCS, hscale]
    set t : ℚ := (w : ℚ) * ((512 : ℚ) / ((max w h : ℕ) : ℚ)) with ht
    have hoX' : (P1.drawImagePaddedToCanvas w h).offsetX =
        round (((512 - round t : ℤ) : ℚ) / 2) := by
      rw [hoX, hdW]
      congr 1
      push_cast
      ring
    have hsum : t + 2 * ((P1.drawImagePaddedToCanvas w h).offsetX : ℚ) =
        t + ((2 * (P1.drawImagePaddedToCanvas w h).offsetX : ℤ) : ℚ) := by
      push_cast
      ring
    rw [hsum, round_add_int]
    rcases two_mul_round_half (512 - round t) with h2 | h2 <;> rw [hoX', h2]
    · rw [show round t + (512 - round t) - 512 = 0 by ring]
      norm_num
    · rw [show round t + (512 - round t + 1) - 512 = 1 by ring]
      norm_num

/-- C4: for every positive source width and height, both letterbox
computations of the repository — `padToSquare` (src/app.js), whose
target square side is the larger source dimension with implicit scale
1, and `drawImagePaddedToCanvas` (src/unnamed/part_001), whose target
is the fixed 512-pixel canvas — produce non-negative offsets whose
minimum is zero, and rounding the scaled source width plus twice the x
offset recovers the target size within one pixel. -/
theorem c4_letterbox_invariants (w h : ℕ) (hw : 1 ≤ w) (hh : 1 ≤ h) :
    (0 ≤ (App2.padToSquare w h).offsetX ∧ 0 ≤ (App2.padToSquare w h).offsetY ∧
      min (App2.padToSquare w h).offsetX (App2.padToSquare w h).offsetY = 0 ∧
      |(w : ℤ) + 2 * (App2.padToSquare w h).offsetX - ((App2.padToSquare w h).size : ℤ)| ≤ 1) ∧
    (0 ≤ (P1.drawImagePaddedToCanvas w h).offsetX ∧
      0 ≤ (P1.drawImagePaddedToCanvas w h).offsetY ∧
      min (P1.drawImagePaddedToCanvas w h).offsetX (P1.drawImagePaddedToCanvas w h).offsetY = 0 ∧
      |round ((w : ℚ) * (P1.drawImagePaddedToCanvas w h).scale +
        2 * ((P1.drawImagePaddedToCanvas w h).offsetX : ℚ)) - (P1.CANVAS_SIZE : ℤ)| ≤ 1) :=
  ⟨App2.padToSquare_invariants w h, P1.pad_invariants w h hw hh⟩

/-- C4 witness: the invariants at the concrete 400 by 300 source of the
spec's end-to-end scenario. -/
theorem c4_concrete_witness :
    (0 ≤ (App2.padToSquare 400 300).offsetX ∧ 0 ≤ (App2.padToSquare 400 300).offsetY ∧
      min (App2.padToSquare 400 300).offsetX (App2.padToSquare 400 300).offsetY = 0 ∧
      |(400 : ℤ) + 2 * (App2.padToSquare 400 300).offsetX -
        ((App2.padToSquare 400 300).size : ℤ)| ≤ 1) ∧
    (0 ≤ (P1.drawImagePaddedToCanvas 400 300).offsetX ∧
      0 ≤ (P1.drawImagePaddedToCanvas 400 300).offsetY ∧
      min (P1.drawImagePaddedToCanvas 400 300).offsetX
        (P1.drawImagePaddedToCanvas 400 300).offsetY = 0 ∧
      |round ((400 : ℚ) * (P1.drawImagePaddedToCanvas 400 300).scale +
        2 * ((P1.drawImagePaddedToCanvas 400 300).offsetX : ℚ)) -
        (P1.CANVAS_SIZE : ℤ)| ≤ 1) :=
  c4_letterbox_invariants 400 300 (by norm_num) (by norm_num)

/-! ## Claim C5: body proportions -/

/-- Auxiliary: the Euclidean norm at a Pythagorean triple. -/
theorem hypotR_eq (a b c : ℝ) (h : a ^ 2 + b ^ 2 = c ^ 2) (hc : 0 ≤ c) :
    hypotR a b = c := by
  rw [hypotR, h]
  exact Real.sqrt_sq hc

/-- C5 (amended): when all eight required keypoints are present,
`computeProportions` (src/unnamed/part_001) returns arm equal to the
mean of the left and right shoulder-to-wrist distances, leg equal to
the mean of the left and right hip-to-ankle distances, and torso equal
to the distance between the shoulder midpoint and the hip midpoint,
each rounded at four decimals with an exact zero reported as null;
`proportions` (src/unnamed/part_000) returns the same arm and leg
means rounded at one decimal, but its torso is the single left
shoulder-to-left-hip distance, not the claim's midpoint-to-midpoint
distance.  In both variants a missing required keypoint makes the
function throw a TypeError (see the counterexample), not return null
fields. -/
theorem c5_proportions_both_variants :
    (∀ (kps : List P1.KP) (lsh rsh lhp rhp lwr rwr lan ran : P1.KP),
      P1.lookup kps "left_shoulder" = some lsh →
      P1.lookup kps "right_shoulder" = some rsh →
      P1.lookup kps "left_hip" = some lhp →
      P1.lookup kps "right_hip" = some rhp →
      P1.lookup kps "left_wrist" = some lwr →
      P1.lookup kps "right_wrist" = some rwr →
      P1.lookup kps "left_ankle" = some lan →
      P1.lookup kps "right_ankle" = some ran →
      P1.computeProportions kps = some
        ⟨P1.posOrNull ((hypotR (lsh.x - lwr.x) (lsh.y - lwr.y) +
            hypotR (rsh.x - rwr.x) (rsh.y - rwr.y)) / 2),
         P1.posOrNull ((hypotR (lhp.x - lan.x) (lhp.y - lan.y) +
            hypotR (rhp.x - ran.x) (rhp.y - ran.y)) / 2),
         P1.posOrNull (hypotR ((lsh.x + rsh.x) / 2 - (lhp.x + rhp.x) / 2)
            ((lsh.y + rsh.y) / 2 - (lhp.y + rhp.y) / 2))⟩) ∧
    (∀ (kps : List P0B.KPB) (lsh lwr rsh rwr lhp lan rhp ran : P0B.KPB),
      P0B.lookup kps "left_shoulder" = some lsh →
      P0B.lookup kps "left_wrist" = some lwr →
      P0B.lookup kps "right_shoulder" = some rsh →
      P0B.lookup kps "right_wrist" = some rwr →
      P0B.lookup kps "left_hip" = some lhp →
      P0B.lookup kps "left_ankle" = some lan →
      P0B.lookup kps "right_hip" = some rhp →
      P0B.lookup kps "right_ankle" = some ran →
      P0B.proportions kps = some
        ⟨round1R ((hypotR (lsh.x - lwr.x) (lsh.y - lwr.y) +
            hypotR (rsh.x - rwr.x) (rsh.y - rwr.y)) / 2),
         round1R ((hypotR (lhp.x - lan.x) (lhp.y - lan.y) +
            hypotR (rhp.x - ran.x) (rhp.y - ran.y)) / 2),
         round1R (hypotR (lsh.x - lhp.x) (lsh.y - lhp.y))⟩) := by
  constructor
  · intro kps lsh rsh lhp rhp lwr rwr lan ran h1 h2 h3 h4 h5 h6 h7 h8
    simp only [P1.computeProportions, h1, h2, h3, h4, h5, h6, h7, h8]
  · intro kps lsh lwr rsh rwr lhp lan rhp ran h1 h2 h3 h4 h5 h6 h7 h8
    simp only [P0B.proportions, h1, h2, h3, h4, h5, h6, h7, h8]

/-- C5 witness: arm 5, leg 10, torso 8 on the part_001 concrete list;
on the part_000 list, arm 5, leg 8 and torso 10 — the left
shoulder-to-left-hip distance — even though the midpoint-to-midpoint
distance there is 8 (final conjunct), exhibiting the torso
deviation. -/
theorem c5_concrete_witness :
    P1.computeProportions c5Kps = some ⟨some 5, some 10, some 8⟩ ∧
    P0B.proportions c5KpsB = some ⟨5, 8, 10⟩ ∧
    hypotR (((0 : ℝ) + 2) / 2 - ((6 : ℝ) + -4) / 2)
      (((0 : ℝ) + 0) / 2 - ((8 : ℝ) + 8) / 2) = 8 := by
  refine ⟨?_, ?_, ?_⟩
  · rw [c5_proportions_both_variants.1 c5Kps ⟨"ls", 0, 0, 1⟩ ⟨"rs", 2, 0, 1⟩ ⟨"lh", 0, 8, 1⟩
        ⟨"rh", 2, 8, 1⟩ ⟨"lw", 3, 4, 1⟩ ⟨"rw", 5, 4, 1⟩ ⟨"la", 6, 16, 1⟩ ⟨"ra", 8, 16, 1⟩
        rfl rfl rfl rfl rfl rfl rfl rfl]
    dsimp only
    rw [hypotR_eq ((0 : ℝ) - 3) (0 - 4) 5 (by norm_num) (by norm_num),
      hypotR_eq ((2 : ℝ) - 5) (0 - 4) 5 (by norm_num) (by norm_num),
      hypotR_eq ((0 : ℝ) - 6) (8 - 16) 10 (by norm_num) (by norm_num),
      hypotR_eq ((2 : ℝ) - 8) (8 - 16) 10 (by norm_num) (by norm_num),
      hypotR_eq (((0 : ℝ) + 2) / 2 - (0 + 2) / 2) ((0 + 0) / 2 - (8 + 8) / 2) 8
        (by norm_num) (by norm_num)]
    norm_num [P1.posOrNull, round4R]
  · rw [c5_proportions_both_variants.2 c5KpsB ⟨"left_shoulder", 0, 0, 1⟩
        ⟨"left_wrist", 3, 4, 1⟩ ⟨"right_shoulder", 2, 0, 1⟩ ⟨"right_wrist", 5, 4, 1⟩
        ⟨"left_hip", 6, 8, 1⟩ ⟨"left_ankle", 6, 16, 1⟩ ⟨"right_hip", -4, 8, 1⟩
        ⟨"right_ankle", -4, 16, 1⟩ rfl rfl rfl rfl rfl rfl rfl rfl]
    dsimp only
    rw [hypotR_eq ((0 : ℝ) - 3) (0 - 4) 5 (by norm_num) (by norm_num),
      hypotR_eq ((2 : ℝ) - 5) (0 - 4) 5 (by norm_num) (by norm_num),
      hypotR_eq ((6 : ℝ) - 6) (8 - 16) 8 (by norm_num) (by norm_num),
      hypotR_eq ((-4 : ℝ) - -4) (8 - 16) 8 (by norm_num) (by norm_num),
      hypotR_eq ((0 : ℝ) - 6) (0 - 8) 10 (by norm_num) (by norm_num)]
    norm_num [round1R]
  · exact hypotR_eq _ _ 8 (by norm_num) (by norm_num)

/-- C5 counterexample: on a keypoint list missing the required
keypoints, `computeProportions` throws (the model's outer `none`, a
JavaScript TypeError from reading a property of `undefined`), instead
of returning the null-field record the claim requires. -/
theorem c5_missing_throws_counterexample :
    P1.computeProportions [] = none := rfl

/-! ## Claim C6: similarity invariance of pose normalization -/

/-- Auxiliary: a fold of a binary operation over a mapped list commutes
with a function that distributes over the operation. -/
theorem foldl_op_map (op : ℝ → ℝ → ℝ) (f : ℝ → ℝ)
    (hf : ∀ x y, f (op x y) = op (f x) (f y)) :
    ∀ (l : List ℝ) (a : ℝ), List.foldl op (f a) (l.map f) = f (List.foldl op a l)
  | [], _ => rfl
  | b :: l, a => by
    simp only [List.map_cons, List.foldl_cons, ← hf]
    exact foldl_op_map op f hf l (op a b)

/-- Auxiliary: `listMin` of a non-empty list mapped through a
min-distributing function. -/
theorem listMin_map (f : ℝ → ℝ) (hf : ∀ x y, f (min x y) = min (f x) (f y)) :
    ∀ l : List ℝ, l ≠ [] → listMin (l.map f) = f (listMin l)
  | [], h => absurd rfl h
  | a :: r, _ => foldl_op_map min f hf r a

/-- Auxiliary: `listMax` of a non-empty list mapped through a
max-distributing function. -/
theorem listMax_map (f : ℝ → ℝ) (hf : ∀ x y, f (max x y) = max (f x) (f y)) :
    ∀ l : List ℝ, l ≠ [] → listMax (l.map f) = f (listMax l)
  | [], h => absurd rfl h
  | a :: r, _ => foldl_op_map max f hf r a

/-- Auxiliary: a fold of `min` is at most its initial value. -/
theorem foldl_min_le_init : ∀ (l : List ℝ) (a : ℝ), List.foldl min a l ≤ a
  | [], a => le_refl a
  | b :: l, a => le_trans (foldl_min_le_init l (min a b)) (min_le_left a b)

/-- Auxiliary: a fold of `min` is at most any member of the list. -/
theorem foldl_min_le_mem : ∀ (l : List ℝ) (a x : ℝ), x ∈ l → List.foldl min a l ≤ x
  | [], _, x, h => absurd h (List.not_mem_nil x)
  | b :: l, a, x, h => by
    rcases List.mem_cons.mp h with rfl | h
    · exact le_trans (foldl_min_le_init l (min a x)) (min_le_right a x)
    · exact foldl_min_le_mem l (min a b) x h

/-- Auxiliary: `listMin` bounds every member from below. -/
theorem listMin_le_of_mem {l : List ℝ} {x : ℝ} (h : x ∈ l) : listMin l ≤ x := by
  rcases l with _ | ⟨a, r⟩
  · exact absurd h (List.not_mem_nil x)
  · rcases List.mem_cons.mp h with rfl | h
    · exact foldl_min_le_init r x
    · exact foldl_min_le_mem r a x h

/-- Auxiliary: a fold of `max` is at least its initial value. -/
theorem foldl_max_init_le : ∀ (l : List ℝ) (a : ℝ), a ≤ List.foldl max a l
  | [], a => le_refl a
  | b :: l, a => le_trans (le_max_left a b) (foldl_max_init_le l (max a b))

/-- Auxiliary: a fold of `max` is at least any member of the list. -/
theorem foldl_max_mem_le : ∀ (l : List ℝ) (a x : ℝ), x ∈ l → x ≤ List.foldl max a l
  | [], _, x, h => absurd h (List.not_mem_nil x)
  | b :: l, a, x, h => by
    rcases List.mem_cons.mp h with rfl | h
    · exact le_trans (le_max_right a x) (foldl_max_init_le l (max a x))
    · exact foldl_max_mem_le l (max a b) x h

/-- Auxiliary: `listMax` bounds every member from above. -/
theorem le_listMax_of_mem {l : List ℝ} {x : ℝ} (h : x ∈ l) : x ≤ listMax l := by
  rcases l with _ | ⟨a, r⟩
  · exact absurd h (List.not_mem_nil x)
  · rcases List.mem_cons.mp h with rfl | h
    · exact foldl_max_init_le r x
    · exact foldl_max_mem_le r a x h

/-- Auxiliary: in a degenerate bounding box every keypoint sits at the
box center. -/
theorem P1.center_of_degenerate {kps : List P1.KP} (hdeg : P1.poseScale0 kps = 0)
    {p : P1.KP} (hp : p ∈ kps) : p.x = P1.poseCx kps ∧ p.y = P1.poseCy kps := by
  have hxmem : p.x ∈ kps.map (·.x) := List.mem_map_of_mem _ hp
  have hymem : p.y ∈ kps.map (·.y) := List.mem_map_of_mem _ hp
  have h1 := listMin_le_of_mem hxmem
  have h2 := le_listMax_of_mem hxmem
  have h3 := listMin_le_of_mem hymem
  have h4 := le_listMax_of_mem hymem
  rw [P1.poseScale0] at hdeg
  have h5 : listMax (kps.map (·.x)) - listMin (kps.map (·.x)) ≤ 0 :=
    le_of_le_of_eq (le_max_left _ _) hdeg
  have h6 : listMax (kps.map (·.y)) - listMin (kps.map (·.y)) ≤ 0 :=
    le_of_le_of_eq (le_max_right _ _) hdeg
  constructor
  · rw [P1.poseCx]
    linarith
  · rw [P1.poseCy]
    linarith

/-- C6: `normalizePose` (src/unnamed/part_001) is invariant under every
positive uniform scale `k` and translation `(tx, ty)` of its input
point set: normalizing the transformed set yields exactly the same
output (in this exact-arithmetic model the agreement is exact, which is
within any floating tolerance). -/
theorem c6_normalizePose_similarity (kps : List P1.KP) (k tx ty : ℝ) (hk : 0 < k) :
    P1.normalizePose (kps.map fun p => ⟨p.name, k * p.x + tx, k * p.y + ty, p.score⟩) =
      P1.normalizePose kps := by
  rcases kps with _ | ⟨p0, rest⟩
  · rfl
  set kps := p0 :: rest with hkps
  set T : P1.KP → P1.KP := fun p => ⟨p.name, k * p.x + tx, k * p.y + ty, p.score⟩ with hT
  have hxne : kps.map (·.x) ≠ [] := by simp [hkps]
  have hyne : kps.map (·.y) ≠ [] := by simp [hkps]
  have hmapx : (kps.map T).map (·.x) = (kps.map (·.x)).map (fun v => k * v + tx) := by
    simp only [List.map_map]
    rfl
  have hmapy : (kps.map T).map (·.y) = (kps.map (·.y)).map (fun v => k * v + ty) := by
    simp only [List.map_map]
    rfl
  have hgx : Monotone (fun v : ℝ => k * v + tx) := fun a b hab => by
    dsimp only
    have := mul_le_mul_of_nonneg_left hab hk.le
    linarith
  have hgy : Monotone (fun v : ℝ => k * v + ty) := fun a b hab => by
    dsimp only
    have := mul_le_mul_of_nonneg_left hab hk.le
    linarith
  have hminx : listMin ((kps.map T).map (·.x)) = k * listMin (kps.map (·.x)) + tx := by
    rw [hmapx, listMin_map _ (fun x y => hgx.map_min) _ hxne]
  have hmaxx : listMax ((kps.map T).map (·.x)) = k * listMax (kps.map (·.x)) + tx := by
    rw [hmapx, listMax_map _ (fun x y => hgx.map_max) _ hxne]
  have hminy : listMin ((kps.map T).map (·.y)) = k * listMin (kps.map (·.y)) + ty := by
    rw [hmapy, listMin_map _ (fun x y => hgy.map_min) _ hyne]
  have hmaxy : listMax ((kps.map T).map (·.y)) = k * listMax (kps.map (·.y)) + ty := by
    rw [hmapy, listMax_map _ (fun x y => hgy.map_max) _ hyne]
  have hcx : P1.poseCx (kps.map T) = k * P1.poseCx kps + tx := by
    rw [P1.poseCx, P1.poseCx, hminx, hmaxx]
    ring
  have hcy : P1.poseCy (kps.map T) = k * P1.poseCy kps + ty := by
    rw [P1.poseCy, P1.poseCy, hminy, hmaxy]
    ring
  have hmul : Monotone (fun v : ℝ => k * v) := fun a b hab =>
    mul_le_mul_of_nonneg_left hab hk.le
  have hs0 : P1.poseScale0 (kps.map T) = k * P1.poseScale0 kps := by
    rw [P1.poseScale0, P1.poseScale0, hminx, hmaxx, hminy, hmaxy,
      show k * listMax (kps.map (·.x)) + tx - (k * listMin (kps.map (·.x)) + tx) =
        k * (listMax (kps.map (·.x)) - listMin (kps.map (·.x))) by ring,
      show k * listMax (kps.map (·.y)) + ty - (k * listMin (kps.map (·.y)) + ty) =
        k * (listMax (kps.map (·.y)) - listMin (kps.map (·.y))) by ring]
    exact (hmul.map_max).symm
  rw [P1.normalizePose, P1.normalizePose, List.map_map]
  refine List.map_congr_left ?_
  intro p hp
  show (⟨p.name, rPrec4 ((k * p.x + tx - P1.poseCx (kps.map T)) / P1.poseScale (kps.map T)),
      rPrec4 ((k * p.y + ty - P1.poseCy (kps.map T)) / P1.poseScale (kps.map T)),
      qPrec4 p.score⟩ : P1.NKP) =
    ⟨p.name, rPrec4 ((p.x - P1.poseCx kps) / P1.poseScale kps),
      rPrec4 ((p.y - P1.poseCy kps) / P1.poseScale kps), qPrec4 p.score⟩
  rw [P1.poseScale, P1.poseScale, hs0, hcx, hcy]
  by_cases hz : P1.poseScale0 kps = 0
  · rw [hz, mul_zero, if_pos rfl]
    obtain ⟨hpx, hpy⟩ := P1.center_of_degenerate hz hp
    rw [hpx, hpy,
      show k * P1.poseCx kps + tx - (k * P1.poseCx kps + tx) = 0 by ring,
      show P1.poseCx kps - P1.poseCx kps = 0 by ring,
      show k * P1.poseCy kps + ty - (k * P1.poseCy kps + ty) = 0 by ring,
      show P1.poseCy kps - P1.poseCy kps = 0 by ring]
  · have hkz : k * P1.poseScale0 kps ≠ 0 := mul_ne_zero hk.ne' hz
    rw [if_neg hkz, if_neg hz,
      show k * p.x + tx - (k * P1.poseCx kps + tx) = k * (p.x - P1.poseCx kps) by ring,
      show k * p.y + ty - (k * P1.poseCy kps + ty) = k * (p.y - P1.poseCy kps) by ring,
      mul_div_mul_left _ _ hk.ne', mul_div_mul_left _ _ hk.ne']

/-- C6 witness: the invariance at a concrete two-point set, scale 2 and
translation (3, 4). -/
theorem c6_concrete_witness :
    P1.normalizePose (([⟨"a", 1, 2, 1⟩, ⟨"b", 5, 7, 1⟩] : List P1.KP).map fun p =>
      (⟨p.name, 2 * p.x + 3, 2 * p.y + 4, p.score⟩ : P1.KP)) =
      P1.normalizePose [⟨"a", 1, 2, 1⟩, ⟨"b", 5, 7, 1⟩] :=
  c6_normalizePose_similarity [⟨"a", 1, 2, 1⟩, ⟨"b", 5, 7, 1⟩] 2 3 4 (by norm_num)

/-! ## Claim C7: degenerate bounding box in normalization -/

/-- C7 (amended): `normalizePose` (src/unnamed/part_001) handles a
degenerate (zero-width, zero-height) bounding box with the scale-1
fallback, so every normalized coordinate is the finite value 0; but the
`normalize` of src/unnamed/part_000 has no such fallback and divides by
the zero extent, producing non-finite (NaN) coordinates there (see the
counterexample). -/
theorem c7_normalizePose_degenerate_safe (kps : List P1.KP)
    (hdeg : P1.poseScale0 kps = 0) :
    P1.normalizePose kps = kps.map fun p => (⟨p.name, 0, 0, qPrec4 p.score⟩ : P1.NKP) := by
  rw [P1.normalizePose]
  refine List.map_congr_left ?_
  intro p hp
  obtain ⟨hpx, hpy⟩ := P1.center_of_degenerate hdeg hp
  rw [P1.poseScale, if_pos hdeg, hpx, hpy,
    show P1.poseCx kps - P1.poseCx kps = 0 by ring,
    show P1.poseCy kps - P1.poseCy kps = 0 by ring]
  rw [zero_div, rPrec4, if_pos rfl]

/-- C7 witness: a single-point pose (a fully degenerate box) normalizes
to finite zero coordinates under `normalizePose`. -/
theorem c7_degenerate_witness :
    P1.normalizePose [⟨"p", 5, 5, 1⟩] = [⟨"p", 0, 0, qPrec4 1⟩] := by
  rw [c7_normalizePose_degenerate_safe [⟨"p", 5, 5, 1⟩] (by
    rw [P1.poseScale0]
    norm_num [listMin, listMax])]
  rfl

/-- C7 counterexample: the same single-point pose under `normalize`
(src/unnamed/part_000) divides zero by zero, so the normalized
coordinates are NaN — non-finite, modelled `none` — refuting the claim
that normalization always falls back to scale 1 with finite output. -/
theorem c7_normalize_counterexample :
    P0B.normalize [⟨"p", 5, 5, 1⟩] = [⟨"p", 5, 5, 1, none, none⟩] := by
  have hcx : P0B.normCx [⟨"p", 5, 5, 1⟩] = 5 := by
    rw [P0B.normCx]
    norm_num [listMin, listMax]
  have hcy : P0B.normCy [⟨"p", 5, 5, 1⟩] = 5 := by
    rw [P0B.normCy]
    norm_num [listMin, listMax]
  have hs : P0B.normScale [⟨"p", 5, 5, 1⟩] = 0 := by
    rw [P0B.normScale]
    norm_num [listMin, listMax]
  rw [P0B.normalize]
  simp only [List.map_cons, List.map_nil, hcx, hcy, hs, jsDiv]
  norm_num

/-! ## Claim C8: angle range -/

/-- C8: for non-degenerate inputs — both segment norms at least the
1e-6 epsilon — `computeAngle` (src/app.js) returns a numeric value in
[0, 180] degrees; the clamp of the cosine argument to [-1, 1] makes the
arc-cosine total, so the bound holds whatever value the dot-product
ratio takes. -/
theorem c8_computeAngle_range (A B C : Pt)
    (h1 : ¬ hypotR (A.x - B.x) (A.y - B.y) < 1e-6)
    (h2 : ¬ hypotR (C.x - B.x) (C.y - B.y) < 1e-6) :
    App2.computeAngle (some A) (some B) (some C) ≠ none ∧
    0 ≤ (App2.computeAngle (some A) (some B) (some C)).getD 0 ∧
    (App2.computeAngle (some A) (some B) (some C)).getD 0 ≤ 180 := by
  have hcond : ¬(hypotR (A.x - B.x) (A.y - B.y) < 1e-6 ∨
      hypotR (C.x - B.x) (C.y - B.y) < 1e-6) := fun hor => hor.elim h1 h2
  have hval : App2.computeAngle (some A) (some B) (some C) =
      some (Real.arccos (max (-1) (min 1
        (((A.x - B.x) * (C.x - B.x) + (A.y - B.y) * (C.y - B.y)) /
          (hypotR (A.x - B.x) (A.y - B.y) * hypotR (C.x - B.x) (C.y - B.y)))))
        * 180 / Real.pi) := by
    simp only [App2.computeAngle]
    rw [if_neg hcond]
  rw [hval]
  refine ⟨Option.some_ne_none _, ?_, ?_⟩
  · simp only [Option.getD_some]
    exact div_nonneg (mul_nonneg (Real.arccos_nonneg _) (by norm_num)) Real.pi_pos.le
  · simp only [Option.getD_some]
    rw [div_le_iff₀ Real.pi_pos]
    have harc := Real.arccos_le_pi (max (-1) (min 1
      (((A.x - B.x) * (C.x - B.x) + (A.y - B.y) * (C.y - B.y)) /
        (hypotR (A.x - B.x) (A.y - B.y) * hypotR (C.x - B.x) (C.y - B.y)))))
    linarith

/-- C8 witness: a right angle between the unit axis points, with both
segments of length 1. -/
theorem c8_range_witness :
    App2.computeAngle (some ⟨1, 0⟩) (some ⟨0, 0⟩) (some ⟨0, 1⟩) ≠ none ∧
    0 ≤ (App2.computeAngle (some ⟨1, 0⟩) (some ⟨0, 0⟩) (some ⟨0, 1⟩)).getD 0 ∧
    (App2.computeAngle (some ⟨1, 0⟩) (some ⟨0, 0⟩) (some ⟨0, 1⟩)).getD 0 ≤ 180 :=
  c8_computeAngle_range ⟨1, 0⟩ ⟨0, 0⟩ ⟨0, 1⟩
    (by
      show ¬ hypotR ((1 : ℝ) - 0) (0 - 0) < 1e-6
      rw [hypotR_eq ((1 : ℝ) - 0) (0 - 0) 1 (by norm_num) (by norm_num)]
      norm_num)
    (by
      show ¬ hypotR ((0 : ℝ) - 0) (1 - 0) < 1e-6
      rw [hypotR_eq ((0 : ℝ) - 0) (1 - 0) 1 (by norm_num) (by norm_num)]
      norm_num)

/-! ## Claim C9: the resolver preserves score and order -/

/-- C9: the coordinate resolvers leave confidence and identity alone.
`normalizeKeypoints` (src/app.js) preserves the array length and, at
every index, the keypoint's score; `ensurePixelCoords`
(src/unnamed/part_001) preserves the keypoint's name and score.  Only
the position fields are rewritten (their transformation rule is the
subject of C1). -/
theorem c9_resolver_preserves_score_and_order :
    (∀ (kps : List App2.KPq) (s : ℚ),
      (App2.normalizeKeypoints kps s).length = kps.length ∧
      ∀ i : ℕ, ((App2.normalizeKeypoints kps s)[i]?).map (·.score) =
        (kps[i]?).map (·.score)) ∧
    (∀ (kp : P1.KPr) (w h : ℚ),
      (P1.ensurePixelCoords kp w h).name = kp.name ∧
      (P1.ensurePixelCoords kp w h).score = kp.score) := by
  constructor
  · intro kps s
    refine ⟨List.length_map _ _, ?_⟩
    intro i
    simp only [App2.normalizeKeypoints, List.getElem?_map]
    rcases kps[i]? with _ | k
    · rfl
    · obtain ⟨kx, ky, ks⟩ := k
      simp only [Option.map_some']
      split <;> rfl
  · intro kp w h
    constructor
    · simp only [P1.ensurePixelCoords]
      split <;> rfl
    · simp only [P1.ensurePixelCoords]
      split <;> rfl

/-! ## Claim C10: best-view selection and its tie-break -/

/-- C10: in both best-view selections — `chooseBestPerAngle`
(src/unnamed/part_001) per joint label and `pickBestByJoint`
(src/unnamed/part_000) per keypoint index — the strictly more confident
view wins and an exact confidence tie deterministically picks the front
view. -/
theorem c10_best_view_selection :
    (∀ (fA sA : P1.AngleLabel → P1.AngleResult) (key : P1.AngleLabel),
      ((sA key).conf < (fA key).conf →
        P1.chooseBestPerAngle fA sA key = ⟨.front, (fA key).angle, (fA key).conf⟩) ∧
      ((fA key).conf < (sA key).conf →
        P1.chooseBestPerAngle fA sA key = ⟨.side, (sA key).angle, (sA key).conf⟩) ∧
      ((fA key).conf = (sA key).conf →
        P1.chooseBestPerAngle fA sA key = ⟨.front, (fA key).angle, (fA key).conf⟩)) ∧
    (∀ (front side : List P0B.KPB) (i : ℕ) (f s : P0B.KPB),
      front[i]? = some f → side[i]? = some s →
      ((s.score < f.score → (P0B.pickBestByJoint front side)[i]? = some f) ∧
       (f.score < s.score → (P0B.pickBestByJoint front side)[i]? = some s) ∧
       (f.score = s.score → (P0B.pickBestByJoint front side)[i]? = some f))) := by
  constructor
  · intro fA sA key
    refine ⟨?_, ?_, ?_⟩
    · intro hlt
      simp only [P1.chooseBestPerAngle]
      rw [if_pos (le_of_lt hlt)]
    · intro hlt
      simp only [P1.chooseBestPerAngle]
      rw [if_neg (not_le.mpr hlt)]
    · intro heq
      simp only [P1.chooseBestPerAngle]
      rw [if_pos (ge_of_eq heq)]
  · intro front side i f s hf hs
    have hzip : (P0B.pickBestByJoint front side)[i]? =
        some (if f.score ≥ s.score then f else s) := by
      rw [P0B.pickBestByJoint, List.getElem?_zipWith, hf, hs]
    refine ⟨?_, ?_, ?_⟩
    · intro hlt
      rw [hzip, if_pos (le_of_lt hlt)]
    · intro hlt
      rw [hzip, if_neg (not_le.mpr hlt)]
    · intro heq
      rw [hzip, if_pos (ge_of_eq heq)]

/-- C10 witness: an exact 0.62 confidence tie picks the front view in
both selection strategies. -/
theorem c10_tie_witness :
    P1.chooseBestPerAngle (fun _ => ⟨some 90, 0.62⟩) (fun _ => ⟨some 45, 0.62⟩)
      .leftElbow = ⟨.front, some 90, 0.62⟩ ∧
    (P0B.pickBestByJoint [⟨"nose", 1, 2, 0.62⟩] [⟨"nose", 3, 4, 0.62⟩])[0]? =
      some ⟨"nose", 1, 2, 0.62⟩ := by
  constructor
  · exact (c10_best_view_selection.1 (fun _ => ⟨some 90, 0.62⟩)
      (fun _ => ⟨some 45, 0.62⟩) .leftElbow).2.2 rfl
  · exact (c10_best_view_selection.2 [⟨"nose", 1, 2, 0.62⟩] [⟨"nose", 3, 4, 0.62⟩]
      0 ⟨"nose", 1, 2, 0.62⟩ ⟨"nose", 3, 4, 0.62⟩ rfl rfl).2.2 rfl

end Pose
